import Mathlib

/-!
Verification of the two Pyro scripts in this repository against their
natural-language specification.

The first part embeds the observation model of
src/2019-02-censored/modeling_censored_time_to_event_data_with_pyro.py;
the second part embeds the model wiring, data loading and evaluation
logic of src/2020-03-forecasting/solar.py.  Tensors of reals are
embedded as lists of reals, torch float arithmetic as exact real
arithmetic, and the log-densities accumulated by the observe statements
of the probabilistic programs as explicit real-valued sums.
-/

namespace Censored

/-- torch.nn.functional.softplus. -/
noncomputable def softplus (z : ℝ) : ℝ := Real.log (1 + Real.exp z)

/-- The per-datapoint Exponential rate used by both models in the
censored script: rate = 1 / softplus(a * x_i + b). -/
noncomputable def expRate (a b xi : ℝ) : ℝ := 1 / softplus (a * xi + b)

/-- Log-density of Exponential(rate) at y (the log_prob that a
pyro.sample observe statement with an Exponential distribution adds to
the trace log-density). -/
noncomputable def exponentialLogProb (rate y : ℝ) : ℝ := Real.log rate - rate * y

/-- CDF of Exponential(rate) at y, as used by y_hidden_dist.cdf. -/
noncomputable def exponentialCdf (rate y : ℝ) : ℝ := 1 - Real.exp (-(rate * y))

/-- Log-density of Bernoulli(p) at value v (v is a float that is 0 or 1
in every use in the script). -/
noncomputable def bernoulliLogProb (p v : ℝ) : ℝ :=
  v * Real.log p + (1 - v) * Real.log (1 - p)

/-- Total observed log-density accumulated by the sequential loop model
(lines 55-72 of the censored script): for every index i it observes
y[i] under Exponential(1/link[i]) when truncation_label[i] == 0, and
otherwise observes truncation_label[i] under
Bernoulli(1 - cdf(y[i])). -/
noncomputable def seqLogLik (a b : ℝ) : List ℝ → List ℝ → List ℝ → ℝ
  | xi :: xs, yi :: ys, ti :: ts =>
      (if ti = 0 then exponentialLogProb (expRate a b xi) yi
       else bernoulliLogProb (1 - exponentialCdf (expRate a b xi) yi) ti)
      + seqLogLik a b xs ys ts
  | _, _, _ => 0

/-- Elementwise sum of a three-argument function over three parallel
lists (the plate dimension of the vectorized model). -/
noncomputable def sum3 (f : ℝ → ℝ → ℝ → ℝ) : List ℝ → List ℝ → List ℝ → ℝ
  | xi :: xs, yi :: ys, ti :: ts => f xi yi ti + sum3 f xs ys ts
  | _, _, _ => 0

/-- Contribution of the "obs" site of the vectorized model at index i:
the Exponential log-density at y[i], masked by
poutine.mask(truncation_label == 0). -/
noncomputable def vecObsTerm (a b xi yi ti : ℝ) : ℝ :=
  if ti = 0 then exponentialLogProb (expRate a b xi) yi else 0

/-- Contribution of the "truncation_label" site of the vectorized model
at index i: the Bernoulli(1 - cdf(y[i])) log-density at the constant
observation 1.0, masked by poutine.mask(truncation_label == 1). -/
noncomputable def vecTruncTerm (a b xi yi ti : ℝ) : ℝ :=
  if ti = 1 then bernoulliLogProb (1 - exponentialCdf (expRate a b xi) yi) 1 else 0

/-- Total observed log-density accumulated by the vectorized
plate/mask model (lines 96-113 of the censored script). -/
noncomputable def vecLogLik (a b : ℝ) (x y tl : List ℝ) : ℝ :=
  sum3 (vecObsTerm a b) x y tl + sum3 (vecTruncTerm a b) x y tl

/-- The observation log-density as the specification words it: the sum
over uncensored indices of the Exponential log-density at y[i], plus
the sum over censored indices of log(1 - CDF of that Exponential at
y[i]). -/
noncomputable def specLogLik (a b : ℝ) (x y tl : List ℝ) : ℝ :=
  sum3 (fun xi yi ti =>
      if ti = 0 then exponentialLogProb (expRate a b xi) yi else 0) x y tl
  + sum3 (fun xi yi ti =>
      if ti = 1 then Real.log (1 - exponentialCdf (expRate a b xi) yi) else 0) x y tl

/-- The censoring indicator computed by line 41 of the script,
truncation_label = (y > c).float(), at one sample. -/
noncomputable def truncationLabelOf (c y : ℝ) : ℝ := if y > c then 1 else 0

/-- y.clamp(max = c) at one sample (line 43 of the script). -/
noncomputable def clampMax (c y : ℝ) : ℝ := min y c

/-- truncation_label = (y > c).float() over the whole sample tensor. -/
noncomputable def truncation_label (c : ℝ) (ys : List ℝ) : List ℝ :=
  ys.map (truncationLabelOf c)

/-- y_obs = y.clamp(max = c) over the whole sample tensor. -/
noncomputable def y_obs (c : ℝ) (ys : List ℝ) : List ℝ :=
  ys.map (clampMax c)

end Censored

namespace Solar

/-- root_two = math.sqrt(2.0) (line 25 of solar.py). -/
noncomputable def root_two : ℝ := Real.sqrt 2

/-- A torch tensor of zeros, embedded as a list. -/
def zeros (n : ℕ) : List ℝ := List.replicate n 0

/-- A torch tensor of ones, embedded as a list. -/
def ones (n : ℕ) : List ℝ := List.replicate n 1

/-- A scalar tensor broadcast against a batch of size n. -/
def broadcast (n : ℕ) (v : ℝ) : List ℝ := List.replicate n v

/-- The distribution expressions built by StableLinearHMM: Normal,
Stable and StudentT with their (broadcast) parameter tensors.  Stable
carries (stability, skew, scale) and StudentT carries (df, loc, scale),
matching the positional arguments used in solar.py. -/
inductive DistExpr where
  | normal (loc scale : List ℝ)
  | stable (stability skew scale : List ℝ)
  | studentT (df loc scale : List ℝ)

/-- The LinearHMM distribution object returned by
StableLinearHMM.get_dist, with its five constructor arguments and the
duration keyword. -/
structure LinearHMMExpr where
  init : DistExpr
  trans_matrix : List (List ℝ)
  trans : DistExpr
  obs_matrix : List (List ℝ)
  obs : DistExpr
  duration : Option ℕ

/-- The state of a StableLinearHMM module: its configuration flags and
the current values of its learned parameters.  solar.py registers the
stability / skew / degrees-of-freedom parameters only for the flags
that use them; here every field is always present, initialized to the
same value the script uses, and is only read on the code paths on which
solar.py reads the corresponding parameter. -/
structure StableLinearHMM where
  obs_dim : ℕ
  state_dim : ℕ
  trans_noise : String
  obs_noise : String
  obs_noise_scale : List ℝ
  trans_noise_scale : List ℝ
  trans_matrix : List (List ℝ)
  obs_matrix : List (List ℝ)
  trans_stability : ℝ
  trans_skew : ℝ
  trans_nu : ℝ
  obs_stability : ℝ
  obs_skew : ℝ
  obs_nu : ℝ

/-- The set of noise flags accepted by the two assert statements in
StableLinearHMM.__init__ (lines 35-36 of solar.py). -/
def validNoise (s : String) : Bool :=
  s = "gaussian" || s = "stable" || s = "student" || s = "skew"

/-- StableLinearHMM.__init__ (lines 29-53 of solar.py): none on an
invalid noise flag (the assert raises), otherwise the constructed
module with its initial parameter values.  The randomly initialized
transition and observation matrices are passed in as arguments. -/
noncomputable def StableLinearHMM.mk? (obs_dim state_dim : ℕ)
    (tnoise onoise : String) (tm om : List (List ℝ)) :
    Option StableLinearHMM :=
  if validNoise tnoise && validNoise onoise then
    some { obs_dim := obs_dim, state_dim := state_dim,
           trans_noise := tnoise, obs_noise := onoise,
           obs_noise_scale := List.replicate obs_dim 0.2,
           trans_noise_scale := List.replicate state_dim 0.2,
           trans_matrix := tm, obs_matrix := om,
           trans_stability := 1.95, trans_skew := 0, trans_nu := 5,
           obs_stability := 1.95, obs_skew := 0, obs_nu := 5 }
  else none

/-- StableLinearHMM._get_init_dist (lines 55-56 of solar.py). -/
def StableLinearHMM.get_init_dist (m : StableLinearHMM) : DistExpr :=
  .normal (zeros m.state_dim) (ones m.state_dim)

/-- StableLinearHMM._get_obs_dist (lines 58-71 of solar.py). -/
noncomputable def StableLinearHMM.get_obs_dist (m : StableLinearHMM)
    (obs_scale : List ℝ) : DistExpr :=
  if m.obs_noise = "stable" then
    .stable (broadcast m.obs_dim m.obs_stability) (zeros m.obs_dim)
      (m.obs_noise_scale.map (fun s => s / root_two))
  else if m.obs_noise = "skew" then
    .stable (broadcast m.obs_dim m.obs_stability) (broadcast m.obs_dim m.obs_skew)
      (m.obs_noise_scale.map (fun s => s / root_two))
  else if m.obs_noise = "student" then
    .studentT (broadcast m.obs_dim m.obs_nu) (zeros m.obs_dim) m.obs_noise_scale
  else
    .normal (zeros m.obs_dim) obs_scale

/-- StableLinearHMM._get_trans_dist (lines 74-84 of solar.py). -/
noncomputable def StableLinearHMM.get_trans_dist (m : StableLinearHMM) : DistExpr :=
  if m.trans_noise = "stable" then
    .stable (broadcast m.state_dim m.trans_stability) (zeros m.state_dim)
      (m.trans_noise_scale.map (fun s => s / root_two))
  else if m.trans_noise = "skew" then
    .stable (broadcast m.state_dim m.trans_stability) (broadcast m.state_dim m.trans_skew)
      (m.trans_noise_scale.map (fun s => s / root_two))
  else if m.trans_noise = "student" then
    .studentT (broadcast m.state_dim m.trans_nu) (zeros m.state_dim) m.trans_noise_scale
  else
    .normal (zeros m.state_dim) m.trans_noise_scale

/-- StableLinearHMM.get_dist (lines 86-88 of solar.py). -/
noncomputable def StableLinearHMM.get_dist (m : StableLinearHMM)
    (duration : Option ℕ) (obs_scale : List ℝ) : LinearHMMExpr :=
  { init := m.get_init_dist, trans_matrix := m.trans_matrix,
    trans := m.get_trans_dist, obs_matrix := m.obs_matrix,
    obs := m.get_obs_dist obs_scale, duration := duration }

/-- Mean of a list of reals (torch Tensor.mean along dim 0, one
column). -/
noncomputable def listMean (xs : List ℝ) : ℝ := xs.sum / xs.length

/-- Sample standard deviation of a list of reals (torch Tensor.std
along dim 0 for one column, which uses the unbiased n - 1
denominator). -/
noncomputable def sampleStd (xs : List ℝ) : ℝ :=
  Real.sqrt (((xs.map (fun v => (v - listMean xs) ^ 2)).sum) / ((xs.length : ℝ) - 1))

/-- Column j of a row-major matrix. -/
def column (rows : List (List ℝ)) (j : ℕ) : List ℝ :=
  rows.map (fun r => r.getD j 0)

/-- data_mean = data.mean(0) (line 100 of solar.py): the per-column
means. -/
noncomputable def colMeans (rows : List (List ℝ)) : List ℝ :=
  (List.range (rows.headD []).length).map (fun j => listMean (column rows j))

/-- data -= data_mean (line 101 of solar.py): each row with the column
means subtracted. -/
noncomputable def centerRows (rows : List (List ℝ)) : List (List ℝ) :=
  rows.map (fun r => List.zipWith (fun v mu => v - mu) r (colMeans rows))

/-- data.std(0): the per-column sample standard deviations of a
matrix. -/
noncomputable def colStds (rows : List (List ℝ)) : List ℝ :=
  (List.range (rows.headD []).length).map (fun j => sampleStd (column rows j))

/-- The columnwise standardization performed by get_data (lines 100-103
of solar.py): the column means are subtracted, then the columns of the
centered data are divided by their standard deviation, data /=
data_std with data_std = data.std(0) computed on the centered data. -/
noncomputable def standardize (rows : List (List ℝ)) : List (List ℝ) :=
  (centerRows rows).map
    (fun r => List.zipWith (fun v sd => v / sd) r (colStds (centerRows rows)))

/-- Columnwise standardization as the specification words it: each
column has its mean subtracted and is then divided by its standard
deviation (the standard deviation of that column of the raw data). -/
noncomputable def standardizeSpec (rows : List (List ℝ)) : List (List ℝ) :=
  rows.map (fun r =>
    List.zipWith (fun v sd => v / sd)
      (List.zipWith (fun v mu => v - mu) r (colMeans rows)) (colStds rows))

/-- pyro.ops.tensor_utils.periodic_features(duration, max_period,
min_period), the external helper called by get_data: row t holds, for
each frequency index k in arange(1, max_period / min_period), the pair
cos(2 pi (k+0) t / max_period + phase) for the two phases 0 and pi/2.
Only its row count (= duration) matters to get_data. -/
noncomputable def periodic_features (duration max_period min_period : ℕ) :
    List (List ℝ) :=
  (List.range duration).map (fun (t : ℕ) =>
    ((List.range (max_period / min_period - 1)).map (fun (k : ℕ) =>
      [Real.cos (2 * Real.pi * ((k : ℕ) + 1 : ℝ) * (t : ℝ) / (max_period : ℝ)),
       Real.cos (2 * Real.pi * ((k : ℕ) + 1 : ℝ) * (t : ℝ) / (max_period : ℝ) + Real.pi / 2)])).flatten)

/-- get_data (lines 91-113 of solar.py): none when the assert
to_keep <= data.size(0) fails, otherwise the first to_keep rows of the
raw dataset standardized columnwise, paired with the periodic
covariates of the same duration. -/
noncomputable def get_data (raw : List (List ℝ))
    (train_window num_windows test_window : ℕ) :
    Option (List (List ℝ) × List (List ℝ)) :=
  if train_window + num_windows * test_window ≤ raw.length then
    some (standardize (raw.take (train_window + num_windows * test_window)),
          periodic_features (raw.take (train_window + num_windows * test_window)).length
            (24 * 60) 10)
  else
    none

/-- The reparameterizer objects used by Model.__init__. -/
inductive ReparamExpr where
  | symmetricStable
  | stableRp
  | studentTRp

/-- LinearHMMReparam(init, trans, obs); Model.__init__ passes only the
trans and obs keywords, leaving init at its default None. -/
structure LinearHMMReparamExpr where
  init : Option ReparamExpr
  trans : Option ReparamExpr
  obs : Option ReparamExpr

/-- The LinearHMMReparam built for the "residual" site by
Model.__init__ (lines 123-139 of solar.py), with its two if/elif
chains selecting the transition and observation reparameterizers. -/
def residualReparam (tnoise onoise : String) : LinearHMMReparamExpr :=
  { init := none,
    trans :=
      if tnoise = "stable" then some .symmetricStable
      else if tnoise = "skew" then some .stableRp
      else if tnoise = "student" then some .studentTRp
      else none,
    obs :=
      if onoise = "stable" then some .symmetricStable
      else if onoise = "skew" then some .stableRp
      else if onoise = "student" then some .studentTRp
      else none }

/-- self.config as assigned by Model.__init__ (line 139 of solar.py):
a dictionary with the single key "residual". -/
def modelConfig (tnoise onoise : String) : List (String × LinearHMMReparamExpr) :=
  [("residual", residualReparam tnoise onoise)]

/-- np.mean of a list of metric values. -/
noncomputable def npMean (xs : List ℝ) : ℝ := xs.sum / xs.length

/-- np.std of a list of metric values (population standard
deviation). -/
noncomputable def npStd (xs : List ℝ) : ℝ :=
  Real.sqrt (((xs.map (fun v => (v - npMean xs) ^ 2)).sum) / (xs.length : ℝ))

/-- The first aggregation loop of main (lines 227-232 of solar.py):
for each name in ["mae", "crps"] it appends (name, mean of the metric
over the backtest windows) and (name ++ "_std", standard deviation) to
the results dictionary.  Each window result is embedded as a lookup
function from metric names to values. -/
noncomputable def evalLoop1 (metrics : List (String → ℝ)) : List (String × ℝ) :=
  (["mae", "crps"].map (fun name =>
    [(name, npMean (metrics.map (fun m => m name))),
     (name ++ "_std", npStd (metrics.map (fun m => m name)))])).flatten

/-- The second aggregation loop of main (lines 233-255 of solar.py):
it iterates over the empty list, so whatever its body would store, it
stores nothing. -/
def evalLoop2 (body : String → List (String × ℝ)) : List (String × ℝ) :=
  (([] : List String).map body).flatten

/-- The results-dictionary entries produced by the two aggregation
loops of main, in insertion order. -/
noncomputable def evalResults (metrics : List (String → ℝ))
    (body : String → List (String × ℝ)) : List (String × ℝ) :=
  evalLoop1 metrics ++ evalLoop2 body

/-- torch Tensor.repeat(k) on a 1-d tensor: the tensor tiled k
times. -/
def tile {α : Type} (k : ℕ) (xs : List α) : List α :=
  match k with
  | 0 => []
  | k + 1 => xs ++ tile k xs

/-- hour = torch.arange(24).repeat(T // 24) (line 148 of solar.py),
where T = covariates.size(0). -/
def hourIndex (T : ℕ) : List ℕ := tile (T / 24) (List.range 24)

/-- Tensor.index_select(0, idx): the rows of the tensor at the given
indices. -/
def indexSelect {α : Type} (rows : List α) (d : α) (idx : List ℕ) : List α :=
  idx.map (fun i => rows.getD i d)

/-- obs_scale = obs_scale.index_select(0, hour) (lines 154-155 of
solar.py): the 24-row learned scale parameter expanded to one row per
time step. -/
def selectObsScale (p : List (List ℝ)) (T : ℕ) : List (List ℝ) :=
  indexSelect p [] (hourIndex T)

/-- The unconstrained tensors that the optimizer actually updates, one
per PyroParam registered by StableLinearHMM.__init__.  Pyro stores a
constrained parameter as transform(unconstrained) where transform is
the bijection onto the constraint set, so a training step may move
these values arbitrarily. -/
structure UnconstrainedParams where
  obs_noise_scale : List ℝ
  trans_noise_scale : List ℝ
  trans_matrix : List (List ℝ)
  obs_matrix : List (List ℝ)
  trans_stability : ℝ
  trans_skew : ℝ
  trans_nu : ℝ
  obs_stability : ℝ
  obs_skew : ℝ
  obs_nu : ℝ

/-- The logistic sigmoid. -/
noncomputable def sigmoid (z : ℝ) : ℝ := 1 / (1 + Real.exp (-z))

/-- The bijection onto constraints.positive used by the parameter
store: exp. -/
noncomputable def positiveTransform (z : ℝ) : ℝ := Real.exp z

/-- The bijection onto constraints.interval(lo, hi) used by the
parameter store: a sigmoid followed by the affine map onto (lo, hi). -/
noncomputable def intervalTransform (lo hi z : ℝ) : ℝ :=
  lo + (hi - lo) * sigmoid z

/-- The constrained parameter values of a StableLinearHMM as a function
of the unconstrained tensors, applying to each parameter the bijection
of the constraint declared for it on lines 38-53 of solar.py. -/
noncomputable def realizeParams (tnoise onoise : String) (od sd : ℕ)
    (u : UnconstrainedParams) : StableLinearHMM :=
  { obs_dim := od, state_dim := sd,
    trans_noise := tnoise, obs_noise := onoise,
    obs_noise_scale := u.obs_noise_scale.map positiveTransform,
    trans_noise_scale := u.trans_noise_scale.map positiveTransform,
    trans_matrix := u.trans_matrix, obs_matrix := u.obs_matrix,
    trans_stability := intervalTransform 1.01 1.99 u.trans_stability,
    trans_skew := intervalTransform (-0.99) 0.99 u.trans_skew,
    trans_nu := intervalTransform 1.01 30 u.trans_nu,
    obs_stability := intervalTransform 1.01 1.99 u.obs_stability,
    obs_skew := intervalTransform (-0.99) 0.99 u.obs_skew,
    obs_nu := intervalTransform 1.01 30 u.obs_nu }

/-- Every stability entry of a Stable distribution expression lies
strictly between 1 and 2; trivial for the other families. -/
def stableStabilityBounds : DistExpr → Prop
  | .stable st _ _ => ∀ v ∈ st, 1 < v ∧ v < 2
  | _ => True

/-- math.ceil(0.80 * n) for a natural n. -/
def ceil08 (n : ℕ) : ℕ := (4 * n + 4) / 5

/-- num_eval_windows = (num_windows - 1) * test_window + 1 (line 220 of
solar.py). -/
def numEvalWindows (num_windows test_window : ℕ) : ℕ :=
  (num_windows - 1) * test_window + 1

/-- Lines 220-224 of solar.py: the RNG is reseeded to 0, a permutation
of the evaluation windows is drawn, and its first ceil(0.80 * n)
entries become index_test while the rest become index_val.  The global
RNG is embedded as a function rp from the seed it was last set to (and
the requested length) to the drawn permutation; the user-supplied seed
argument is taken as a parameter but the script reseeds with the
constant 0 before drawing. -/
def evalSplit (rp : ℕ → ℕ → List ℕ) (seed num_windows test_window : ℕ) :
    List ℕ × List ℕ :=
  let n := numEvalWindows num_windows test_window
  let index := rp 0 n
  (index.take (ceil08 n), index.drop (ceil08 n))

/-- A deterministic stand-in permutation generator used to witness the
theorems that are parametric in the RNG. -/
def idPerm (seed n : ℕ) : List ℕ := List.range n

end Solar

namespace Censored

theorem bernoulliLogProb_one (p : ℝ) : bernoulliLogProb p 1 = Real.log p := by
  simp [bernoulliLogProb]

theorem sum3_congr (f g : ℝ → ℝ → ℝ → ℝ) (x y tl : List ℝ)
    (h : ∀ xi yi ti, ti ∈ tl → f xi yi ti = g xi yi ti) :
    sum3 f x y tl = sum3 g x y tl := by
  induction x generalizing y tl with
  | nil => cases y <;> cases tl <;> simp [sum3]
  | cons xi xs ih =>
    cases y with
    | nil => cases tl <;> simp [sum3]
    | cons yi ys =>
      cases tl with
      | nil => simp [sum3]
      | cons ti ts =>
        have h1 : f xi yi ti = g xi yi ti := h xi yi ti (List.mem_cons_self _ _)
        have h2 : sum3 f xs ys ts = sum3 g xs ys ts :=
          ih ys ts (fun a c t ht => h a c t (List.mem_cons_of_mem _ ht))
        simp only [sum3, h1, h2]

theorem seqLogLik_eq_sum3 (a b : ℝ) (x y tl : List ℝ)
    (hbin : ∀ t ∈ tl, t = 0 ∨ t = 1) :
    seqLogLik a b x y tl =
      sum3 (fun xi yi ti =>
          if ti = 0 then exponentialLogProb (expRate a b xi) yi else 0) x y tl
      + sum3 (fun xi yi ti =>
          if ti = 1 then Real.log (1 - exponentialCdf (expRate a b xi) yi) else 0) x y tl := by
  induction x generalizing y tl with
  | nil => cases y <;> cases tl <;> simp [seqLogLik, sum3]
  | cons xi xs ih =>
    cases y with
    | nil => cases tl <;> simp [seqLogLik, sum3]
    | cons yi ys =>
      cases tl with
      | nil => simp [seqLogLik, sum3]
      | cons ti ts =>
        have hti : ti = 0 ∨ ti = 1 := hbin ti (List.mem_cons_self _ _)
        have ihr := ih ys ts (fun t ht => hbin t (List.mem_cons_of_mem _ ht))
        rcases hti with rfl | rfl
        · simp only [seqLogLik, sum3, ihr, bernoulliLogProb_one]
          norm_num
          ring
        · simp only [seqLogLik, sum3, ihr, bernoulliLogProb_one]
          norm_num
          ring

/-- C1: for every input (x, y, truncation_label) with every label in
{0, 1} and every values of a_model and b_model, the total observed
log-density of the vectorized plate/mask model equals the sum over
uncensored indices of the Exponential log-density at y[i] plus the sum
over censored indices of log(1 - CDF at y[i]), which is exactly the
log-density accumulated by the sequential loop model. -/
theorem vectorized_model_matches_sequential_model (a b : ℝ) (x y tl : List ℝ)
    (hy : x.length = y.length) (ht : x.length = tl.length)
    (hbin : ∀ t ∈ tl, t = 0 ∨ t = 1) :
    vecLogLik a b x y tl = specLogLik a b x y tl ∧
    seqLogLik a b x y tl = specLogLik a b x y tl := by
  constructor
  · unfold vecLogLik specLogLik
    congr 1
    refine sum3_congr _ _ _ _ _ (fun xi yi ti hmem => ?_)
    rcases hbin ti hmem with rfl | rfl
    · norm_num [vecTruncTerm]
    · simp [vecTruncTerm, bernoulliLogProb_one]
  · exact seqLogLik_eq_sum3 a b x y tl hbin

theorem vectorized_model_matches_sequential_model_witness :
    vecLogLik 1 2 [0] [3] [0] = specLogLik 1 2 [0] [3] [0] ∧
    seqLogLik 1 2 [0] [3] [0] = specLogLik 1 2 [0] [3] [0] :=
  vectorized_model_matches_sequential_model 1 2 [0] [3] [0] (by simp) (by simp)
    (by intro t htm; rw [List.mem_singleton] at htm; exact Or.inl htm)

/-- C2: in the hardcoded data generation with censoring threshold
c = 8, the label is 1 exactly when y exceeds 8 and 0 otherwise, the
observed value is min(y, 8), hence it never exceeds 8, equals y on
uncensored points and equals 8 on censored points. -/
theorem censoring_threshold_spec (ys : List ℝ) (i : ℕ) (hi : i < ys.length) :
    ((truncation_label 8 ys).getD i 0 = 1 ↔ 8 < ys.getD i 0) ∧
    ((truncation_label 8 ys).getD i 0 = 0 ↔ ¬ 8 < ys.getD i 0) ∧
    (y_obs 8 ys).getD i 0 = min (ys.getD i 0) 8 ∧
    (y_obs 8 ys).getD i 0 ≤ 8 ∧
    ((truncation_label 8 ys).getD i 0 = 0 → (y_obs 8 ys).getD i 0 = ys.getD i 0) ∧
    ((truncation_label 8 ys).getD i 0 = 1 → (y_obs 8 ys).getD i 0 = 8) := by
  have hlen1 : i < (truncation_label 8 ys).length := by
    simpa [truncation_label] using hi
  have hlen2 : i < (y_obs 8 ys).length := by
    simpa [y_obs] using hi
  have e1 : (truncation_label 8 ys).getD i 0 = truncationLabelOf 8 (ys.getD i 0) := by
    rw [List.getD_eq_getElem _ _ hlen1, List.getD_eq_getElem _ _ hi]
    simp [truncation_label]
  have e2 : (y_obs 8 ys).getD i 0 = clampMax 8 (ys.getD i 0) := by
    rw [List.getD_eq_getElem _ _ hlen2, List.getD_eq_getElem _ _ hi]
    simp [y_obs]
  rw [e1, e2]
  by_cases hgt : (8 : ℝ) < ys.getD i 0
  · have hl : truncationLabelOf 8 (ys.getD i 0) = 1 := by
      unfold truncationLabelOf; exact if_pos hgt
    have hc : clampMax 8 (ys.getD i 0) = 8 := min_eq_right (le_of_lt hgt)
    rw [hl, hc]
    exact ⟨⟨fun _ => hgt, fun _ => rfl⟩,
           ⟨fun h10 => absurd h10 (by norm_num), fun h => absurd hgt h⟩,
           (min_eq_right (le_of_lt hgt)).symm,
           le_refl 8,
           fun h10 => absurd h10 (by norm_num),
           fun _ => rfl⟩
  · have hle : ys.getD i 0 ≤ 8 := not_lt.mp hgt
    have hl : truncationLabelOf 8 (ys.getD i 0) = 0 := by
      unfold truncationLabelOf; exact if_neg hgt
    have hc : clampMax 8 (ys.getD i 0) = ys.getD i 0 := min_eq_left hle
    rw [hl, hc]
    exact ⟨⟨fun h01 => absurd h01 (by norm_num), fun h => absurd h hgt⟩,
           ⟨fun _ => hgt, fun _ => rfl⟩,
           (min_eq_left hle).symm,
           hle,
           fun _ => rfl,
           fun h01 => absurd h01 (by norm_num)⟩

theorem censoring_threshold_spec_witness :
    ((truncation_label 8 [(9 : ℝ)]).getD 0 0 = 1 ↔ 8 < ([(9 : ℝ)]).getD 0 0) ∧
    ((truncation_label 8 [(9 : ℝ)]).getD 0 0 = 0 ↔ ¬ 8 < ([(9 : ℝ)]).getD 0 0) ∧
    (y_obs 8 [(9 : ℝ)]).getD 0 0 = min (([(9 : ℝ)]).getD 0 0) 8 ∧
    (y_obs 8 [(9 : ℝ)]).getD 0 0 ≤ 8 ∧
    ((truncation_label 8 [(9 : ℝ)]).getD 0 0 = 0 → (y_obs 8 [(9 : ℝ)]).getD 0 0 = ([(9 : ℝ)]).getD 0 0) ∧
    ((truncation_label 8 [(9 : ℝ)]).getD 0 0 = 1 → (y_obs 8 [(9 : ℝ)]).getD 0 0 = 8) :=
  censoring_threshold_spec [(9 : ℝ)] 0 (by simp)

end Censored

namespace Solar

/-- C3: get_dist returns a LinearHMM whose initial distribution is a
standard Normal over state_dim dimensions and whose transition and
observation noise distributions are selected by the corresponding
flag: gaussian gives a zero-mean Normal (observation scale from the
obs_scale argument, transition scale from the learned
trans_noise_scale), student gives a StudentT with the learned
degrees-of-freedom, stable gives a Stable with zero skewness, skew a
Stable with the learned skewness, both Stable cases with the learned
scale divided by sqrt(2). -/
theorem get_dist_structure (m : StableLinearHMM) (duration : Option ℕ)
    (obs_scale : List ℝ) :
    (m.get_dist duration obs_scale).init = .normal (zeros m.state_dim) (ones m.state_dim) ∧
    (m.trans_noise = "gaussian" →
      (m.get_dist duration obs_scale).trans = .normal (zeros m.state_dim) m.trans_noise_scale) ∧
    (m.trans_noise = "student" →
      (m.get_dist duration obs_scale).trans =
        .studentT (broadcast m.state_dim m.trans_nu) (zeros m.state_dim) m.trans_noise_scale) ∧
    (m.trans_noise = "stable" →
      (m.get_dist duration obs_scale).trans =
        .stable (broadcast m.state_dim m.trans_stability) (zeros m.state_dim)
          (m.trans_noise_scale.map (fun s => s / Real.sqrt 2))) ∧
    (m.trans_noise = "skew" →
      (m.get_dist duration obs_scale).trans =
        .stable (broadcast m.state_dim m.trans_stability) (broadcast m.state_dim m.trans_skew)
          (m.trans_noise_scale.map (fun s => s / Real.sqrt 2))) ∧
    (m.obs_noise = "gaussian" →
      (m.get_dist duration obs_scale).obs = .normal (zeros m.obs_dim) obs_scale) ∧
    (m.obs_noise = "student" →
      (m.get_dist duration obs_scale).obs =
        .studentT (broadcast m.obs_dim m.obs_nu) (zeros m.obs_dim) m.obs_noise_scale) ∧
    (m.obs_noise = "stable" →
      (m.get_dist duration obs_scale).obs =
        .stable (broadcast m.obs_dim m.obs_stability) (zeros m.obs_dim)
          (m.obs_noise_scale.map (fun s => s / Real.sqrt 2))) ∧
    (m.obs_noise = "skew" →
      (m.get_dist duration obs_scale).obs =
        .stable (broadcast m.obs_dim m.obs_stability) (broadcast m.obs_dim m.obs_skew)
          (m.obs_noise_scale.map (fun s => s / Real.sqrt 2))) := by
  refine ⟨rfl, ?_, ?_, ?_, ?_, ?_, ?_, ?_, ?_⟩ <;> intro h <;>
    simp [StableLinearHMM.get_dist, StableLinearHMM.get_trans_dist,
      StableLinearHMM.get_obs_dist, root_two, h]

theorem get_dist_structure_witness :
    (StableLinearHMM.get_dist
        { obs_dim := 2, state_dim := 3, trans_noise := "stable", obs_noise := "gaussian",
          obs_noise_scale := [1, 1], trans_noise_scale := [1, 1, 1],
          trans_matrix := [], obs_matrix := [],
          trans_stability := 1.5, trans_skew := 0, trans_nu := 5,
          obs_stability := 1.5, obs_skew := 0, obs_nu := 5 } none []).trans =
      .stable (broadcast 3 1.5) (zeros 3) ([1, 1, 1].map (fun s => s / Real.sqrt 2)) :=
  (get_dist_structure
    { obs_dim := 2, state_dim := 3, trans_noise := "stable", obs_noise := "gaussian",
      obs_noise_scale := [1, 1], trans_noise_scale := [1, 1, 1],
      trans_matrix := [], obs_matrix := [],
      trans_stability := 1.5, trans_skew := 0, trans_nu := 5,
      obs_stability := 1.5, obs_skew := 0, obs_nu := 5 } none []).2.2.2.1 rfl

/-- C5: StableLinearHMM construction succeeds exactly when both noise
flags are drawn from the set gaussian, stable, student, skew, and the
assert raises for any flag outside it. -/
theorem init_noise_validation (od sd : ℕ) (tnoise onoise : String)
    (tm om : List (List ℝ)) :
    (StableLinearHMM.mk? od sd tnoise onoise tm om).isSome = true ↔
      ((tnoise = "gaussian" ∨ tnoise = "stable" ∨ tnoise = "student" ∨ tnoise = "skew") ∧
       (onoise = "gaussian" ∨ onoise = "stable" ∨ onoise = "student" ∨ onoise = "skew")) := by
  have hiff : (validNoise tnoise && validNoise onoise) = true ↔
      ((tnoise = "gaussian" ∨ tnoise = "stable" ∨ tnoise = "student" ∨ tnoise = "skew") ∧
       (onoise = "gaussian" ∨ onoise = "stable" ∨ onoise = "student" ∨ onoise = "skew")) := by
    simp [validNoise, Bool.and_eq_true, Bool.or_eq_true, decide_eq_true_eq, or_assoc]
  unfold StableLinearHMM.mk?
  split_ifs with h
  · simpa using hiff.mp h
  · simp only [Option.isSome_none, Bool.false_eq_true, false_iff]
    exact fun hr => h (hiff.mpr hr)

theorem init_noise_validation_witness :
    (StableLinearHMM.mk? 1 3 "gaussian" "skew" [] []).isSome = true ↔
      (("gaussian" = "gaussian" ∨ "gaussian" = "stable" ∨ "gaussian" = "student" ∨ "gaussian" = "skew") ∧
       ("skew" = "gaussian" ∨ "skew" = "stable" ∨ "skew" = "student" ∨ "skew" = "skew")) :=
  init_noise_validation 1 3 "gaussian" "skew" [] []

/-- C6: Model.__init__ configures the residual site with a
LinearHMMReparam whose transition and observation reparameterizers
match the noise flags: none for gaussian, SymmetricStableReparam for
stable, StableReparam for skew, StudentTReparam for student. -/
theorem model_reparam_config (tnoise onoise : String) :
    modelConfig tnoise onoise = [("residual", residualReparam tnoise onoise)] ∧
    (residualReparam tnoise onoise).init = none ∧
    (tnoise = "gaussian" → (residualReparam tnoise onoise).trans = none) ∧
    (tnoise = "stable" → (residualReparam tnoise onoise).trans = some .symmetricStable) ∧
    (tnoise = "skew" → (residualReparam tnoise onoise).trans = some .stableRp) ∧
    (tnoise = "student" → (residualReparam tnoise onoise).trans = some .studentTRp) ∧
    (onoise = "gaussian" → (residualReparam tnoise onoise).obs = none) ∧
    (onoise = "stable" → (residualReparam tnoise onoise).obs = some .symmetricStable) ∧
    (onoise = "skew" → (residualReparam tnoise onoise).obs = some .stableRp) ∧
    (onoise = "student" → (residualReparam tnoise onoise).obs = some .studentTRp) := by
  refine ⟨rfl, rfl, ?_, ?_, ?_, ?_, ?_, ?_, ?_, ?_⟩ <;> intro h <;>
    simp [residualReparam, h]

theorem model_reparam_config_witness :
    (residualReparam "stable" "student").trans = some .symmetricStable ∧
    (residualReparam "stable" "student").obs = some .studentTRp :=
  ⟨(model_reparam_config "stable" "student").2.2.2.1 rfl,
   (model_reparam_config "stable" "student").2.2.2.2.2.2.2.2.2 rfl⟩

/-- C7: main aggregates exactly the metrics mae and crps: for each it
stores the mean under the metric name and the standard deviation under
the name with the suffix _std, in that order, and the second
aggregation loop stores nothing because it iterates over the empty
list. -/
theorem main_metric_aggregation (metrics : List (String → ℝ))
    (body : String → List (String × ℝ)) :
    evalResults metrics body =
      [("mae", npMean (metrics.map (fun m => m "mae"))),
       ("mae_std", npStd (metrics.map (fun m => m "mae"))),
       ("crps", npMean (metrics.map (fun m => m "crps"))),
       ("crps_std", npStd (metrics.map (fun m => m "crps")))] ∧
    (evalResults metrics body).map Prod.fst = ["mae", "mae_std", "crps", "crps_std"] ∧
    evalLoop2 body = [] := by
  have h : evalResults metrics body =
      [("mae", npMean (metrics.map (fun m => m "mae"))),
       ("mae_std", npStd (metrics.map (fun m => m "mae"))),
       ("crps", npMean (metrics.map (fun m => m "crps"))),
       ("crps_std", npStd (metrics.map (fun m => m "crps")))] := rfl
  exact ⟨h, by rw [h]; rfl, rfl⟩

theorem main_metric_aggregation_witness :
    evalResults [fun _ => 1] (fun _ => []) =
      [("mae", npMean ([fun _ => (1 : ℝ)].map (fun m => m "mae"))),
       ("mae_std", npStd ([fun _ => (1 : ℝ)].map (fun m => m "mae"))),
       ("crps", npMean ([fun _ => (1 : ℝ)].map (fun m => m "crps"))),
       ("crps_std", npStd ([fun _ => (1 : ℝ)].map (fun m => m "crps")))] ∧
    (evalResults [fun _ => (1 : ℝ)] (fun _ => [])).map Prod.fst =
      ["mae", "mae_std", "crps", "crps_std"] ∧
    evalLoop2 (fun _ => ([] : List (String × ℝ))) = [] :=
  main_metric_aggregation [fun _ => 1] (fun _ => [])

end Solar

namespace Solar

theorem tile_length {α : Type} (k : ℕ) (xs : List α) :
    (tile k xs).length = k * xs.length := by
  induction k with
  | zero => simp [tile]
  | succ k ih => simp [tile, ih, Nat.succ_mul]; omega

theorem tile_getD {α : Type} (d : α) (k : ℕ) (xs : List α) (t : ℕ)
    (ht : t < k * xs.length) :
    (tile k xs).getD t d = xs.getD (t % xs.length) d := by
  induction k generalizing t with
  | zero => simp at ht
  | succ k ih =>
    by_cases hlt : t < xs.length
    · rw [tile, List.getD_append _ _ _ _ hlt, Nat.mod_eq_of_lt hlt]
    · have hge : xs.length ≤ t := le_of_not_lt hlt
      have hsub : t - xs.length < k * xs.length := by
        have hexp : (k + 1) * xs.length = k * xs.length + xs.length := Nat.succ_mul k xs.length
        omega
      rw [tile, List.getD_append_right _ _ _ _ hge, ih _ hsub,
        Nat.mod_eq_sub_mod hge]

theorem hourIndex_length (T : ℕ) : (hourIndex T).length = T / 24 * 24 := by
  simp [hourIndex, tile_length]

theorem hourIndex_getD (T t : ℕ) (ht : t < T / 24 * 24) :
    (hourIndex T).getD t 0 = t % 24 := by
  rw [hourIndex, tile_getD 0 (T / 24) (List.range 24) t (by simpa using ht)]
  simp only [List.length_range]
  have hm : t % 24 < (List.range 24).length := by
    simpa using Nat.mod_lt t (by norm_num)
  rw [List.getD_eq_getElem _ _ hm, List.getElem_range]

/-- C8: the hour vector has 24 * floor(T / 24) entries tiling
arange(24); when 24 divides T the selected observation scale has
exactly T rows and its row t is parameter row t mod 24, and when 24
does not divide T the hour vector has fewer than T entries, so the
selected scale no longer matches the duration. -/
theorem obs_scale_hour_indexing (p : List (List ℝ)) (hp : p.length = 24) (T : ℕ) :
    (24 ∣ T →
      (selectObsScale p T).length = T ∧
      ∀ t, t < T → (selectObsScale p T).getD t [] = p.getD (t % 24) []) ∧
    (¬ 24 ∣ T → (hourIndex T).length < T) := by
  constructor
  · intro hdvd
    have hidx : (hourIndex T).length = T := by
      rw [hourIndex_length, Nat.div_mul_cancel hdvd]
    have hsel : (selectObsScale p T).length = T := by
      simpa [selectObsScale, indexSelect] using hidx
    refine ⟨hsel, fun t ht => ?_⟩
    have ht2 : t < (hourIndex T).length := by rw [hidx]; exact ht
    have ht3 : t < (selectObsScale p T).length := by rw [hsel]; exact ht
    rw [List.getD_eq_getElem _ _ ht3]
    have : (selectObsScale p T)[t] = p.getD ((hourIndex T)[t]) [] := by
      simp [selectObsScale, indexSelect]
    rw [this]
    congr 1
    rw [← List.getD_eq_getElem _ 0 ht2]
    exact hourIndex_getD T t (by rw [← hourIndex_length]; exact ht2)
  · intro hnd
    have h1 : T % 24 ≠ 0 := fun h => hnd (Nat.dvd_of_mod_eq_zero h)
    have h2 := Nat.div_add_mod T 24
    rw [hourIndex_length]
    omega

theorem obs_scale_hour_indexing_witness :
    ((List.replicate 24 [(1 : ℝ)]).length = 24) ∧
    (24 ∣ 48 →
      (selectObsScale (List.replicate 24 [(1 : ℝ)]) 48).length = 48 ∧
      ∀ t, t < 48 → (selectObsScale (List.replicate 24 [(1 : ℝ)]) 48).getD t [] =
        (List.replicate 24 [(1 : ℝ)]).getD (t % 24) []) ∧
    (¬ 24 ∣ 48 → (hourIndex 48).length < 48) :=
  ⟨by simp, obs_scale_hour_indexing (List.replicate 24 [(1 : ℝ)]) (by simp) 48⟩

end Solar

namespace Solar

theorem sigmoid_pos (z : ℝ) : 0 < sigmoid z := by
  unfold sigmoid
  positivity

theorem sigmoid_lt_one (z : ℝ) : sigmoid z < 1 := by
  unfold sigmoid
  rw [div_lt_one (by positivity)]
  linarith [Real.exp_pos (-z)]

theorem intervalTransform_mem (lo hi z : ℝ) (h : lo < hi) :
    lo < intervalTransform lo hi z ∧ intervalTransform lo hi z < hi := by
  unfold intervalTransform
  have h1 := sigmoid_pos z
  have h2 := sigmoid_lt_one z
  constructor <;> nlinarith

theorem realize_scales_pos (l : List ℝ) : ∀ s ∈ l.map positiveTransform, 0 < s := by
  intro s hs
  rcases List.mem_map.mp hs with ⟨z, _, rfl⟩
  exact Real.exp_pos z

/-- C9: for every unconstrained parameter state, in particular after
any number of training steps from any start, the constrained parameter
values realized through the constraint bijections lie in their declared
sets: the noise scales are strictly positive, the stability parameters
lie in (1.01, 1.99), the skewness parameters in (-0.99, 0.99), the
degrees-of-freedom parameters in (1.01, 30); consequently every Stable
distribution in the LinearHMM returned by get_dist has stability
strictly between 1 and 2. -/
theorem learned_params_stay_in_constraints (tnoise onoise : String) (od sd : ℕ)
    (step : UnconstrainedParams → UnconstrainedParams) (k : ℕ)
    (u0 : UnconstrainedParams) :
    (∀ s ∈ (realizeParams tnoise onoise od sd (step^[k] u0)).obs_noise_scale, 0 < s) ∧
    (∀ s ∈ (realizeParams tnoise onoise od sd (step^[k] u0)).trans_noise_scale, 0 < s) ∧
    (1.01 < (realizeParams tnoise onoise od sd (step^[k] u0)).trans_stability ∧
      (realizeParams tnoise onoise od sd (step^[k] u0)).trans_stability < 1.99) ∧
    (1.01 < (realizeParams tnoise onoise od sd (step^[k] u0)).obs_stability ∧
      (realizeParams tnoise onoise od sd (step^[k] u0)).obs_stability < 1.99) ∧
    (-0.99 < (realizeParams tnoise onoise od sd (step^[k] u0)).trans_skew ∧
      (realizeParams tnoise onoise od sd (step^[k] u0)).trans_skew < 0.99) ∧
    (-0.99 < (realizeParams tnoise onoise od sd (step^[k] u0)).obs_skew ∧
      (realizeParams tnoise onoise od sd (step^[k] u0)).obs_skew < 0.99) ∧
    (1.01 < (realizeParams tnoise onoise od sd (step^[k] u0)).trans_nu ∧
      (realizeParams tnoise onoise od sd (step^[k] u0)).trans_nu < 30) ∧
    (1.01 < (realizeParams tnoise onoise od sd (step^[k] u0)).obs_nu ∧
      (realizeParams tnoise onoise od sd (step^[k] u0)).obs_nu < 30) ∧
    (∀ (duration : Option ℕ) (obs_scale : List ℝ),
      stableStabilityBounds
        ((realizeParams tnoise onoise od sd (step^[k] u0)).get_dist duration obs_scale).trans ∧
      stableStabilityBounds
        ((realizeParams tnoise onoise od sd (step^[k] u0)).get_dist duration obs_scale).obs) := by
  generalize step^[k] u0 = u
  have hts := intervalTransform_mem 1.01 1.99 u.trans_stability (by norm_num)
  have hos := intervalTransform_mem 1.01 1.99 u.obs_stability (by norm_num)
  have htk := intervalTransform_mem (-0.99) 0.99 u.trans_skew (by norm_num)
  have hok := intervalTransform_mem (-0.99) 0.99 u.obs_skew (by norm_num)
  have htn := intervalTransform_mem 1.01 30 u.trans_nu (by norm_num)
  have hon := intervalTransform_mem 1.01 30 u.obs_nu (by norm_num)
  refine ⟨realize_scales_pos _, realize_scales_pos _, hts, hos, htk, hok, htn, hon,
    fun duration obs_scale => ⟨?_, ?_⟩⟩
  · show stableStabilityBounds
      (StableLinearHMM.get_trans_dist (realizeParams tnoise onoise od sd u))
    unfold StableLinearHMM.get_trans_dist
    split_ifs with h1 h2 h3 <;> try trivial
    all_goals
      intro v hv
      rw [List.eq_of_mem_replicate hv]
      simp only [realizeParams]
      exact ⟨by linarith [hts.1], by linarith [hts.2]⟩
  · show stableStabilityBounds
      (StableLinearHMM.get_obs_dist (realizeParams tnoise onoise od sd u) obs_scale)
    unfold StableLinearHMM.get_obs_dist
    split_ifs with h1 h2 h3 <;> try trivial
    all_goals
      intro v hv
      rw [List.eq_of_mem_replicate hv]
      simp only [realizeParams]
      exact ⟨by linarith [hos.1], by linarith [hos.2]⟩

end Solar

namespace Solar

theorem learned_params_stay_in_constraints_witness :
    1.01 < (realizeParams "stable" "student" 1 2
      (id^[3] ⟨[0], [0], [], [], 0, 0, 0, 0, 0, 0⟩)).trans_stability ∧
    (realizeParams "stable" "student" 1 2
      (id^[3] ⟨[0], [0], [], [], 0, 0, 0, 0, 0, 0⟩)).trans_stability < 1.99 :=
  (learned_params_stay_in_constraints "stable" "student" 1 2 id 3
    ⟨[0], [0], [], [], 0, 0, 0, 0, 0, 0⟩).2.2.1

/-- C10: the validation/test split is deterministic and independent of
the user-supplied seed because the RNG is reseeded to 0 immediately
before the permutation is drawn; for every permutation-valued RNG the
two index sets partition the range of n = (num_windows - 1) *
test_window + 1 evaluation windows disjointly, and index_test holds
exactly ceil(0.80 * n) of them. -/
theorem eval_split_seed_independent (rp : ℕ → ℕ → List ℕ)
    (hrp : ∀ n, (rp 0 n).Perm (List.range n))
    (seed1 seed2 nw tw : ℕ) (hnw : 1 ≤ nw) :
    evalSplit rp seed1 nw tw = evalSplit rp seed2 nw tw ∧
    ((evalSplit rp seed1 nw tw).1 ++ (evalSplit rp seed1 nw tw).2).Perm
      (List.range (numEvalWindows nw tw)) ∧
    List.Disjoint (evalSplit rp seed1 nw tw).1 (evalSplit rp seed1 nw tw).2 ∧
    (evalSplit rp seed1 nw tw).1.length = ceil08 (numEvalWindows nw tw) := by
  refine ⟨rfl, ?_, ?_, ?_⟩
  · show ((rp 0 (numEvalWindows nw tw)).take (ceil08 (numEvalWindows nw tw)) ++
      (rp 0 (numEvalWindows nw tw)).drop (ceil08 (numEvalWindows nw tw))).Perm
      (List.range (numEvalWindows nw tw))
    rw [List.take_append_drop]
    exact hrp _
  · have hnodup : (rp 0 (numEvalWindows nw tw)).Nodup :=
      ((hrp _).nodup_iff).mpr (List.nodup_range _)
    exact List.disjoint_take_drop hnodup (le_refl _)
  · have hlen : (rp 0 (numEvalWindows nw tw)).length = numEvalWindows nw tw :=
      ((hrp _).length_eq).trans (List.length_range _)
    show ((rp 0 (numEvalWindows nw tw)).take (ceil08 (numEvalWindows nw tw))).length = _
    rw [List.length_take, hlen]
    have hle : ceil08 (numEvalWindows nw tw) ≤ numEvalWindows nw tw := by
      unfold ceil08; omega
    exact Nat.min_eq_left hle

theorem eval_split_seed_independent_witness :
    evalSplit idPerm 1 2 3 = evalSplit idPerm 7 2 3 ∧
    ((evalSplit idPerm 1 2 3).1 ++ (evalSplit idPerm 1 2 3).2).Perm
      (List.range (numEvalWindows 2 3)) ∧
    List.Disjoint (evalSplit idPerm 1 2 3).1 (evalSplit idPerm 1 2 3).2 ∧
    (evalSplit idPerm 1 2 3).1.length = ceil08 (numEvalWindows 2 3) :=
  eval_split_seed_independent idPerm (fun n => List.Perm.refl _) 1 7 2 3 (by norm_num)

end Solar

namespace Solar

theorem sum_map_sub_const (xs : List ℝ) (c : ℝ) :
    (xs.map (fun v => v - c)).sum = xs.sum - xs.length * c := by
  induction xs with
  | nil => simp
  | cons h t ih =>
    simp only [List.map_cons, List.sum_cons, List.length_cons, ih,
      Nat.cast_add, Nat.cast_one]
    ring

theorem listMean_map_sub (xs : List ℝ) (c : ℝ) (hne : xs ≠ []) :
    listMean (xs.map (fun v => v - c)) = listMean xs - c := by
  have hn : (xs.length : ℝ) ≠ 0 :=
    Nat.cast_ne_zero.mpr (fun h => hne (List.length_eq_zero.mp h))
  unfold listMean
  rw [sum_map_sub_const, List.length_map]
  field_simp

theorem sampleStd_map_sub (xs : List ℝ) (c : ℝ) :
    sampleStd (xs.map (fun v => v - c)) = sampleStd xs := by
  cases xs with
  | nil => rfl
  | cons h t =>
    have hne : (h :: t) ≠ [] := List.cons_ne_nil h t
    unfold sampleStd
    rw [listMean_map_sub _ _ hne, List.length_map]
    have hmap : ((h :: t).map (fun v => v - c)).map
        (fun v => (v - (listMean (h :: t) - c)) ^ 2) =
        (h :: t).map (fun v => (v - listMean (h :: t)) ^ 2) := by
      rw [List.map_map]
      apply List.map_congr_left
      intro a _
      simp only [Function.comp]
      ring
    rw [hmap]

theorem colMeans_length (rows : List (List ℝ)) :
    (colMeans rows).length = (rows.headD []).length := by
  simp [colMeans]

theorem column_centerRows (rows : List (List ℝ)) (j : ℕ)
    (hj : j < (rows.headD []).length)
    (hrect : ∀ r ∈ rows, r.length = (rows.headD []).length) :
    column (centerRows rows) j =
      (column rows j).map (fun v => v - (colMeans rows).getD j 0) := by
  unfold column centerRows
  rw [List.map_map, List.map_map]
  apply List.map_congr_left
  intro r hr
  simp only [Function.comp]
  have hrl : r.length = (rows.headD []).length := hrect r hr
  have hml : (colMeans rows).length = (rows.headD []).length := colMeans_length rows
  have h1 : j < r.length := by rw [hrl]; exact hj
  have h2 : j < (colMeans rows).length := by rw [hml]; exact hj
  have hz : j < (List.zipWith (fun v mu => v - mu) r (colMeans rows)).length := by
    rw [List.length_zipWith]
    exact lt_min h1 h2
  rw [List.getD_eq_getElem _ _ hz, List.getElem_zipWith,
    List.getD_eq_getElem _ _ h1, List.getD_eq_getElem _ _ h2]

theorem centerRows_head_length (rows : List (List ℝ)) :
    ((centerRows rows).headD []).length = (rows.headD []).length := by
  cases rows with
  | nil => rfl
  | cons r rs =>
    simp [centerRows, colMeans, List.length_zipWith]

theorem colStds_centerRows (rows : List (List ℝ))
    (hrect : ∀ r ∈ rows, r.length = (rows.headD []).length) :
    colStds (centerRows rows) = colStds rows := by
  unfold colStds
  rw [centerRows_head_length rows]
  apply List.map_congr_left
  intro j hj
  rw [column_centerRows rows j (List.mem_range.mp hj) hrect, sampleStd_map_sub]

theorem standardize_eq_standardizeSpec (rows : List (List ℝ))
    (hrect : ∀ r ∈ rows, r.length = (rows.headD []).length) :
    standardize rows = standardizeSpec rows := by
  unfold standardize standardizeSpec
  rw [colStds_centerRows rows hrect]
  unfold centerRows
  rw [List.map_map]
  rfl

theorem take_rect (raw : List (List ℝ)) (k : ℕ)
    (hrect : ∀ r ∈ raw, r.length = (raw.headD []).length) :
    ∀ r ∈ raw.take k, r.length = ((raw.take k).headD []).length := by
  intro r hr
  have h1 : r.length = (raw.headD []).length := hrect r (List.mem_of_mem_take hr)
  cases raw with
  | nil => simp at hr
  | cons a as =>
    cases k with
    | zero => simp at hr
    | succ k => simpa using h1

theorem periodic_features_length (d mp mnp : ℕ) :
    (periodic_features d mp mnp).length = d := by
  unfold periodic_features
  rw [List.length_map, List.length_range]

/-- C4: get_data returns exactly the first train_window + num_windows *
test_window rows of the raw dataset, standardized columnwise (each
column has its mean subtracted and is then divided by its standard
deviation), paired with periodic covariates of the same number of
rows, and it fails precisely when the raw dataset has fewer rows than
train_window + num_windows * test_window. -/
theorem get_data_spec (raw : List (List ℝ)) (tw nw sw : ℕ)
    (hrect : ∀ r ∈ raw, r.length = (raw.headD []).length) :
    (tw + nw * sw ≤ raw.length →
      get_data raw tw nw sw =
        some (standardizeSpec (raw.take (tw + nw * sw)),
              periodic_features (tw + nw * sw) (24 * 60) 10) ∧
      (periodic_features (tw + nw * sw) (24 * 60) 10).length = tw + nw * sw ∧
      (standardizeSpec (raw.take (tw + nw * sw))).length = tw + nw * sw) ∧
    (raw.length < tw + nw * sw → get_data raw tw nw sw = none) := by
  constructor
  · intro h
    have htake : (raw.take (tw + nw * sw)).length = tw + nw * sw := by
      rw [List.length_take]; exact Nat.min_eq_left h
    refine ⟨?_, periodic_features_length _ _ _, ?_⟩
    · unfold get_data
      rw [if_pos h, standardize_eq_standardizeSpec _ (take_rect raw _ hrect), htake]
    · unfold standardizeSpec
      rw [List.length_map, htake]
  · intro h
    unfold get_data
    rw [if_neg (not_le.mpr h)]

theorem get_data_spec_witness :
    (1 + 1 * 1 ≤ ([[(1 : ℝ)], [(3 : ℝ)]] : List (List ℝ)).length →
      get_data [[(1 : ℝ)], [(3 : ℝ)]] 1 1 1 =
        some (standardizeSpec (([[(1 : ℝ)], [(3 : ℝ)]] : List (List ℝ)).take (1 + 1 * 1)),
              periodic_features (1 + 1 * 1) (24 * 60) 10) ∧
      (periodic_features (1 + 1 * 1) (24 * 60) 10).length = 1 + 1 * 1 ∧
      (standardizeSpec (([[(1 : ℝ)], [(3 : ℝ)]] : List (List ℝ)).take (1 + 1 * 1))).length =
        1 + 1 * 1) ∧
    (([[(1 : ℝ)], [(3 : ℝ)]] : List (List ℝ)).length < 1 + 1 * 1 →
      get_data [[(1 : ℝ)], [(3 : ℝ)]] 1 1 1 = none) :=
  get_data_spec [[(1 : ℝ)], [(3 : ℝ)]] 1 1 1
    (by
      intro r hr
      simp only [List.mem_cons, List.not_mem_nil, or_false] at hr
      rcases hr with rfl | rfl <;> rfl)

end Solar
